import Mathlib

/-!
Verification of the subscale PGS subtitle converter: the geometry remapper
(`cropped_offset`), the window-collision validator, the palette colour grader's
structural effect, and the binary segment codec with its round-trip law.

Machine integers are modelled as `Nat`.  The Rust source performs `u16`
arithmetic; two embeddings are given: `cropped_offsetW` performs wrapping
(release-mode) arithmetic modulo 2^16, and `cropped_offsetChecked` performs
checked (debug-mode) arithmetic where any overflow or underflow yields `none`.
-/

/-- Wrapping 16-bit addition: both arguments are assumed below 2^16. -/
def wadd (a b : Nat) : Nat := (a + b) % 65536

/-- Wrapping 16-bit subtraction: both arguments are assumed below 2^16. -/
def wsub (a b : Nat) : Nat := (a + 65536 - b) % 65536

/-- Wrapping 16-bit multiplication. -/
def wmul (a b : Nat) : Nat := (a * b) % 65536

/-- The geometry remapping function of pgsmod, release (wrapping) semantics.
Translated from `cropped_offset` in pgsmod/src/main.rs.  Returns the new
offset together with a flag recording whether the margin-fit warning was
emitted. -/
def cropped_offsetW (screen_full_size screen_crop_size size offset margin : Nat) :
    Nat × Bool :=
  if wadd size (wmul 2 margin) > screen_crop_size then
    (0, true)
  else
    let new_offset := wsub offset ((wsub screen_full_size screen_crop_size) / 2)
    if new_offset < margin then
      (margin, false)
    else if wadd (wadd new_offset size) margin > screen_crop_size then
      (wsub (wsub screen_crop_size size) margin, false)
    else
      (new_offset, false)

/-- The value computed by `cropped_offsetW`, discarding the warning flag. -/
def cropped_offset (screen_full_size screen_crop_size size offset margin : Nat) :
    Nat :=
  (cropped_offsetW screen_full_size screen_crop_size size offset margin).1

/-- The geometry remapping function of pgsmod, debug (checked) semantics:
`none` means the Rust code would abort on an arithmetic overflow or
underflow.  Each `if` guards one u16 operation of `cropped_offset` in
pgsmod/src/main.rs, in evaluation order: the multiplication `2 * margin`,
the addition `size + 2 * margin`, the subtractions
`screen_full_size - screen_crop_size` and `offset - _ / 2`, the additions
`new_offset + size` and `_ + margin`, and the subtractions
`screen_crop_size - size` and `_ - margin`. -/
def cropped_offsetChecked (screen_full_size screen_crop_size size offset margin : Nat) :
    Option (Nat × Bool) :=
  if 2 * margin < 65536 then
    if size + 2 * margin < 65536 then
      if size + 2 * margin > screen_crop_size then
        some (0, true)
      else
        if screen_crop_size ≤ screen_full_size then
          if (screen_full_size - screen_crop_size) / 2 ≤ offset then
            let new_offset := offset - (screen_full_size - screen_crop_size) / 2
            if new_offset < margin then
              some (margin, false)
            else
              if new_offset + size < 65536 then
                if new_offset + size + margin < 65536 then
                  if new_offset + size + margin > screen_crop_size then
                    if size ≤ screen_crop_size then
                      if margin ≤ screen_crop_size - size then
                        some (screen_crop_size - size - margin, false)
                      else none
                    else none
                  else
                    some (new_offset, false)
                else none
              else none
          else none
        else none
    else none
  else none

/-- Follows the specification text for the clamping step: the shifted offset
`offset - (full - crop) / 2` (truncating integer division) clamped into the
interval from `margin` to `crop - size - margin`.  Stated over `Int` so that
a negative shifted offset clamps to the lower bound, exactly as the words of
the specification describe. -/
def clampSpec (screen_full_size screen_crop_size size offset margin : Nat) : Int :=
  let shifted : Int :=
    (offset : Int) - Int.tdiv ((screen_full_size : Int) - (screen_crop_size : Int)) 2
  if shifted < (margin : Int) then
    (margin : Int)
  else if shifted + (size : Int) + (margin : Int) > (screen_crop_size : Int) then
    (screen_crop_size : Int) - (size : Int) - (margin : Int)
  else
    shifted

/-- A window definition inside a display set: position and size, as u16
values.  Mirrors the window fields used by pgsmod/src/main.rs. -/
structure DsWindow where
  x : Nat
  y : Nat
  width : Nat
  height : Nat
  deriving DecidableEq, Repr

/-- One palette entry: luma, chroma-blue, chroma-red and alpha bytes. -/
structure DsPalEntry where
  y : Nat
  cb : Nat
  cr : Nat
  alpha : Nat
  deriving DecidableEq, Repr

/-- A palette: entries keyed by their index byte. -/
structure DsPalette where
  entries : List (Nat × DsPalEntry)
  deriving DecidableEq, Repr

/-- A composition object's mutable position fields. -/
structure DsCompObj where
  x : Nat
  y : Nat
  deriving DecidableEq, Repr

/-- An object definition's size fields. -/
structure DsObject where
  width : Nat
  height : Nat
  deriving DecidableEq, Repr

/-- The in-memory display set manipulated by the pgsmod main loop: screen
size, presentation timestamp, and the keyed collections of composition
objects, windows, palettes and object definitions. -/
structure DisplaySet where
  pts : Nat
  width : Nat
  height : Nat
  compObjs : List (Nat × DsCompObj)
  windows : List (Nat × DsWindow)
  palettes : List (Nat × DsPalette)
  objects : List (Nat × DsObject)
  deriving DecidableEq, Repr

/-- Remapping of one window, as performed by the window loop of
pgsmod/src/main.rs: each coordinate is recomputed by `cropped_offset` with
the window's own width or height as the item size. -/
def remapWindow (full_width crop_width full_height crop_height margin : Nat)
    (w : DsWindow) : DsWindow :=
  { x := cropped_offset full_width crop_width w.width w.x margin
    y := cropped_offset full_height crop_height w.height w.y margin
    width := w.width
    height := w.height }

/-- The collision test of the window-validation double loop: the top-left
corner of `w2` lies inside the rectangle of `w1`, computed with the same
wrapping u16 additions as the source. -/
def cornerInside (w1 w2 : DsWindow) : Bool :=
  decide (w1.x ≤ w2.x) && decide (w2.x ≤ wadd w1.x w1.width) &&
    decide (w1.y ≤ w2.y) && decide (w2.y ≤ wadd w1.y w1.height)

/-- The double loop over all ordered pairs of windows with distinct
identifiers, from pgsmod/src/main.rs. -/
def collisionFound (ws : List (Nat × DsWindow)) : Bool :=
  ws.any fun p1 => ws.any fun p2 => decide (p1.1 ≠ p2.1) && cornerInside p1.2 p2.2

/-- The window-collision validation: a detected collision aborts the run with
a fatal error naming the display set's presentation timestamp. -/
def checkWindows (pts : Nat) (ws : List (Nat × DsWindow)) : Except Nat Unit :=
  if collisionFound ws then .error pts else .ok ()

/-- Grading of one palette entry, from the `lum-scale` branch of
pgsmod/src/main.rs: the luma, chroma-blue and chroma-red bytes are replaced
by the result of the colour transform while the alpha byte is untouched.
The numeric transform itself (decode to linear RGB, scale by the luminance
factor, re-encode) is 64-bit floating-point code; it enters here as the
abstract function `g` on the `(y, cb, cr)` triple, since the structural
effect of grading does not depend on the numeric values produced. -/
def gradeEntry (g : Nat → Nat → Nat → Nat × Nat × Nat) (e : DsPalEntry) : DsPalEntry :=
  let t := g e.y e.cb e.cr
  { y := t.1, cb := t.2.1, cr := t.2.2, alpha := e.alpha }

/-- Grading of every entry of every palette of a display set, in place. -/
def gradeDisplaySet (g : Nat → Nat → Nat → Nat × Nat × Nat) (ds : DisplaySet) :
    DisplaySet :=
  { ds with
    palettes := ds.palettes.map fun p =>
      (p.1, ⟨p.2.entries.map fun e => (e.1, gradeEntry g e.2)⟩) }

/-- Demonstration windows before remapping, used to exercise the collision
validator on a remapped display set. -/
def demoOrigWindows : List (Nat × DsWindow) :=
  [(1, ⟨65000, 5, 1000, 100⟩), (2, ⟨65500, 50, 10, 10⟩)]

/-- The demonstration windows after remapping with full size 65535×100,
crop size 65535×100 and margin 30. -/
def demoRemappedWindows : List (Nat × DsWindow) :=
  demoOrigWindows.map fun p => (p.1, remapWindow 65535 65535 100 100 30 p.2)

/-- Two small windows in range whose corners collide, used as a concrete
instance of the collision validator's fatal path. -/
def demoCollidingWindows : List (Nat × DsWindow) :=
  [(1, ⟨10, 10, 100, 100⟩), (2, ⟨50, 50, 20, 20⟩)]

/-- A byte of the binary stream. -/
abbrev Byte := Fin 256

/-- Structural read errors of the segment codec.  The first seven mirror the
error enumeration of src/src/seg.rs; `bodySizeMismatch` reports a body whose
declared size disagrees with its content.  Modelled from the spec: the codec
of the pgs crate used by pgsmod is not part of this repository's sources;
the reader below follows the partial reader of src/src/seg.rs where that
exists (header framing and the presentation-composition body) and the
specification's segment layout for the remaining kinds. -/
inductive SegError where
  | truncatedSegment
  | unrecognizedMagicNumber
  | unrecognizedKind
  | unrecognizedFrameRate
  | unrecognizedCompositionState
  | unrecognizedPaletteUpdateFlag
  | unrecognizedCroppedFlag
  | bodySizeMismatch
  deriving DecidableEq, Repr

/-- Composition state of a presentation composition segment. -/
inductive CompState where
  | normal
  | acquisitionPoint
  | epochStart
  deriving DecidableEq, Repr

/-- The optional crop sub-rectangle of a composition object. -/
structure CropRect where
  x : Nat
  y : Nat
  width : Nat
  height : Nat
  deriving DecidableEq, Repr

/-- A composition-object record of a presentation composition segment. -/
structure CompObj where
  obj_id : Nat
  win_id : Nat
  x : Nat
  y : Nat
  crop : Option CropRect
  deriving DecidableEq, Repr

/-- The body of a presentation composition segment. -/
structure PresCompSeg where
  width : Nat
  height : Nat
  comp_num : Nat
  comp_state : CompState
  pal_update : Bool
  pal_id : Nat
  comp_objs : List CompObj
  deriving DecidableEq, Repr

/-- One window record of a window definition segment. -/
structure WinDefRec where
  id : Nat
  x : Nat
  y : Nat
  width : Nat
  height : Nat
  deriving DecidableEq, Repr

/-- One entry of a palette definition segment: index, luma, chroma-red,
chroma-blue, alpha. -/
structure PalEntry where
  idx : Nat
  y : Nat
  cr : Nat
  cb : Nat
  alpha : Nat
  deriving DecidableEq, Repr

/-- The body of a palette definition segment. -/
structure PalSeg where
  pal_id : Nat
  version : Nat
  entries : List PalEntry
  deriving DecidableEq, Repr

/-- The body of an object definition segment; the run-length-compressed
pixel payload is carried through opaquely. -/
structure ObjSeg where
  obj_id : Nat
  version : Nat
  seq_flag : Nat
  width : Nat
  height : Nat
  payload : List Byte
  deriving DecidableEq, Repr

/-- The kind-specific body of a segment. -/
inductive SegBody where
  | presComp (pcs : PresCompSeg)
  | winDef (wins : List WinDefRec)
  | palDef (pds : PalSeg)
  | objDef (ods : ObjSeg)
  | endSeg
  deriving DecidableEq, Repr

/-- A segment: presentation timestamp, decoding timestamp and body. -/
structure Seg where
  pts : Nat
  dts : Nat
  body : SegBody
  deriving DecidableEq, Repr

/-- Read one big-endian u8 from the byte stream. -/
def rdU8 : List Byte → Except SegError (Nat × List Byte)
  | [] => .error .truncatedSegment
  | b :: r => .ok (b.val, r)

/-- Read one big-endian u16 from the byte stream. -/
def rdU16 : List Byte → Except SegError (Nat × List Byte)
  | a :: b :: r => .ok (a.val * 256 + b.val, r)
  | _ => .error .truncatedSegment

/-- Read one big-endian 24-bit value from the byte stream. -/
def rdU24 : List Byte → Except SegError (Nat × List Byte)
  | a :: b :: c :: r => .ok (a.val * 65536 + b.val * 256 + c.val, r)
  | _ => .error .truncatedSegment

/-- Read one big-endian u32 from the byte stream. -/
def rdU32 : List Byte → Except SegError (Nat × List Byte)
  | a :: b :: c :: d :: r =>
    .ok (a.val * 16777216 + b.val * 65536 + c.val * 256 + d.val, r)
  | _ => .error .truncatedSegment

/-- Read a counted run of raw bytes from the byte stream. -/
def rdBytes (n : Nat) (bs : List Byte) : Except SegError (List Byte × List Byte) :=
  if n ≤ bs.length then .ok (bs.take n, bs.drop n) else .error .truncatedSegment

/-- Sequencing of a parse step: pass the parsed value and the remaining
bytes on, propagating errors. -/
def pbind {A B : Type} (x : Except SegError (A × List Byte))
    (k : A → List Byte → Except SegError B) : Except SegError B :=
  match x with
  | .error e => .error e
  | .ok (v, r) => k v r

/-- Parse one composition-object record: object id, window id, cropped flag,
x, y, and the crop rectangle when the flag says so.  Follows the
composition-object loop of `parse_pcs` in src/src/seg.rs. -/
def parseCompObj (bs : List Byte) : Except SegError (CompObj × List Byte) :=
  pbind (rdU16 bs) fun obj_id bs1 =>
  pbind (rdU8 bs1) fun win_id bs2 =>
  pbind (rdU8 bs2) fun flag bs3 =>
  if flag = 0x40 then
    pbind (rdU16 bs3) fun x bs4 =>
    pbind (rdU16 bs4) fun y bs5 =>
    pbind (rdU16 bs5) fun cx bs6 =>
    pbind (rdU16 bs6) fun cy bs7 =>
    pbind (rdU16 bs7) fun cw bs8 =>
    pbind (rdU16 bs8) fun ch bs9 =>
    .ok (⟨obj_id, win_id, x, y, some ⟨cx, cy, cw, ch⟩⟩, bs9)
  else if flag = 0x00 then
    pbind (rdU16 bs3) fun x bs4 =>
    pbind (rdU16 bs4) fun y bs5 =>
    .ok (⟨obj_id, win_id, x, y, none⟩, bs5)
  else
    .error .unrecognizedCroppedFlag

/-- Parse a counted run of composition-object records. -/
def parseCompObjs : Nat → List Byte → Except SegError (List CompObj × List Byte)
  | 0, bs => .ok ([], bs)
  | n + 1, bs =>
    pbind (parseCompObj bs) fun o bs1 =>
    pbind (parseCompObjs n bs1) fun os bs2 =>
    .ok (o :: os, bs2)

/-- Parse the body of a presentation composition segment: width, height, the
fixed frame-rate byte 0x10, composition number, composition state, palette
update flag, palette id, and the counted composition objects.  Follows
`parse_pcs` in src/src/seg.rs. -/
def parsePcs (bs : List Byte) : Except SegError (PresCompSeg × List Byte) :=
  pbind (rdU16 bs) fun width bs1 =>
  pbind (rdU16 bs1) fun height bs2 =>
  pbind (rdU8 bs2) fun fr bs3 =>
  if fr = 0x10 then
    pbind (rdU16 bs3) fun comp_num bs4 =>
    pbind (rdU8 bs4) fun cs bs5 =>
    if cs = 0x00 ∨ cs = 0x40 ∨ cs = 0x80 then
      pbind (rdU8 bs5) fun pu bs6 =>
      if pu = 0x00 ∨ pu = 0x80 then
        pbind (rdU8 bs6) fun pal_id bs7 =>
        pbind (rdU8 bs7) fun cnt bs8 =>
        pbind (parseCompObjs cnt bs8) fun objs bs9 =>
        .ok (⟨width, height, comp_num,
          if cs = 0x00 then .normal
          else if cs = 0x40 then .acquisitionPoint
          else .epochStart,
          pu = 0x80, pal_id, objs⟩, bs9)
      else
        .error .unrecognizedPaletteUpdateFlag
    else
      .error .unrecognizedCompositionState
  else
    .error .unrecognizedFrameRate

/-- Parse one window record of a window definition segment. -/
def parseWin (bs : List Byte) : Except SegError (WinDefRec × List Byte) :=
  pbind (rdU8 bs) fun id bs1 =>
  pbind (rdU16 bs1) fun x bs2 =>
  pbind (rdU16 bs2) fun y bs3 =>
  pbind (rdU16 bs3) fun width bs4 =>
  pbind (rdU16 bs4) fun height bs5 =>
  .ok (⟨id, x, y, width, height⟩, bs5)

/-- Parse a counted run of window records. -/
def parseWins : Nat → List Byte → Except SegError (List WinDefRec × List Byte)
  | 0, bs => .ok ([], bs)
  | n + 1, bs =>
    pbind (parseWin bs) fun w bs1 =>
    pbind (parseWins n bs1) fun ws bs2 =>
    .ok (w :: ws, bs2)

/-- Parse the body of a window definition segment: a window count followed
by that many window records. -/
def parseWds (bs : List Byte) : Except SegError (List WinDefRec × List Byte) :=
  pbind (rdU8 bs) fun cnt bs1 => parseWins cnt bs1

/-- Parse palette entries filling the remaining declared body: each entry is
five bytes (index, luma, chroma-red, chroma-blue, alpha); running out of
bytes in the middle of an entry is a truncation. -/
def parsePalEntries : List Byte → Except SegError (List PalEntry)
  | [] => .ok []
  | i :: y :: cr :: cb :: a :: rest =>
    match parsePalEntries rest with
    | .error e => .error e
    | .ok es => .ok (⟨i.val, y.val, cr.val, cb.val, a.val⟩ :: es)
  | _ => .error .truncatedSegment

/-- Parse the body of a palette definition segment: palette id, version,
then entries filling the rest of the declared body size. -/
def parsePds (bs : List Byte) : Except SegError (PalSeg × List Byte) :=
  pbind (rdU8 bs) fun pal_id bs1 =>
  pbind (rdU8 bs1) fun version bs2 =>
  match parsePalEntries bs2 with
  | .error e => .error e
  | .ok es => .ok (⟨pal_id, version, es⟩, ([] : List Byte))

/-- Parse the body of an object definition segment: object id, version,
sequence flag, 24-bit payload length, width, height, then the declared
number of raw payload bytes. -/
def parseOds (bs : List Byte) : Except SegError (ObjSeg × List Byte) :=
  pbind (rdU16 bs) fun obj_id bs1 =>
  pbind (rdU8 bs1) fun version bs2 =>
  pbind (rdU8 bs2) fun seq_flag bs3 =>
  pbind (rdU24 bs3) fun len bs4 =>
  pbind (rdU16 bs4) fun width bs5 =>
  pbind (rdU16 bs5) fun height bs6 =>
  pbind (rdBytes len bs6) fun payload bs7 =>
  .ok (⟨obj_id, version, seq_flag, width, height, payload⟩, bs7)

/-- Dispatch a body slice on the segment kind byte: 0x16 presentation
composition, 0x17 window definition, 0x14 palette definition, 0x15 object
definition, 0x80 end of display set. -/
def parseBody (kind : Nat) (bb : List Byte) : Except SegError (SegBody × List Byte) :=
  if kind = 0x16 then
    pbind (parsePcs bb) fun p r => .ok (.presComp p, r)
  else if kind = 0x17 then
    pbind (parseWds bb) fun ws r => .ok (.winDef ws, r)
  else if kind = 0x14 then
    pbind (parsePds bb) fun p r => .ok (.palDef p, r)
  else if kind = 0x15 then
    pbind (parseOds bb) fun o r => .ok (.objDef o, r)
  else if kind = 0x80 then
    .ok (.endSeg, bb)
  else
    .error .unrecognizedKind

/-- Read one whole segment: the magic number 0x5047, timestamps, kind byte,
body size, then a body of exactly that size.  Follows `read_seg` of
src/src/seg.rs for the framing; the kinds beyond the presentation
composition are modelled from the spec. -/
def readSegCore (bs : List Byte) : Except SegError (Seg × List Byte) :=
  pbind (rdU16 bs) fun magic bs1 =>
  if magic = 0x5047 then
    pbind (rdU32 bs1) fun pts bs2 =>
    pbind (rdU32 bs2) fun dts bs3 =>
    pbind (rdU8 bs3) fun kind bs4 =>
    pbind (rdU16 bs4) fun size bs5 =>
    if size ≤ bs5.length then
      pbind (parseBody kind (bs5.take size)) fun body rem =>
      if rem = [] then
        .ok (⟨pts, dts, body⟩, bs5.drop size)
      else
        .error .bodySizeMismatch
    else
      .error .truncatedSegment
  else
    .error .unrecognizedMagicNumber

/-- The outcome of attempting to read one segment: clean end-of-stream
(end-of-input exactly at a segment boundary), a structural or truncation
error, or a segment with the remaining input. -/
inductive ReadResult where
  | noMore
  | err (e : SegError)
  | ok (seg : Seg) (rest : List Byte)
  deriving DecidableEq, Repr

/-- Read one segment, distinguishing the clean end of the stream (no bytes
remain before a new segment's header) from every error raised while a
record is partially read. -/
def readSeg (bs : List Byte) : ReadResult :=
  match bs with
  | [] => .noMore
  | b :: r =>
    match readSegCore (b :: r) with
    | .error e => .err e
    | .ok (seg, rest) => .ok seg rest

/-- The orchestrator's classification of a read outcome, from the error
match of the pgsmod main loop: a clean end of stream terminates the loop
normally; every read error is fatal and aborts the run. -/
def fatalOutcome : ReadResult → Bool
  | .noMore => false
  | .err _ => true
  | .ok _ _ => false

/-- Serialize a u8. -/
def wrU8 (n : Nat) : List Byte := [⟨n % 256, Nat.mod_lt _ (by omega)⟩]

/-- Serialize a big-endian u16. -/
def wrU16 (n : Nat) : List Byte := wrU8 (n / 256) ++ wrU8 n

/-- Serialize a big-endian 24-bit value. -/
def wrU24 (n : Nat) : List Byte := wrU8 (n / 65536) ++ wrU8 (n / 256) ++ wrU8 n

/-- Serialize a big-endian u32. -/
def wrU32 (n : Nat) : List Byte :=
  wrU8 (n / 16777216) ++ wrU8 (n / 65536) ++ wrU8 (n / 256) ++ wrU8 n

/-- Serialize each element of a list and concatenate the results. -/
def wrList {α : Type} (f : α → List Byte) : List α → List Byte
  | [] => []
  | a :: as => f a ++ wrList f as

/-- The byte encoding a composition state. -/
def csByte : CompState → Nat
  | .normal => 0x00
  | .acquisitionPoint => 0x40
  | .epochStart => 0x80

/-- Serialize one composition-object record. -/
def wrCompObj (o : CompObj) : List Byte :=
  wrU16 o.obj_id ++ wrU8 o.win_id ++
    (match o.crop with
      | some _ => wrU8 0x40
      | none => wrU8 0x00) ++
    wrU16 o.x ++ wrU16 o.y ++
    (match o.crop with
      | some c => wrU16 c.x ++ wrU16 c.y ++ wrU16 c.width ++ wrU16 c.height
      | none => [])

/-- Serialize the body of a presentation composition segment. -/
def wrPcs (p : PresCompSeg) : List Byte :=
  wrU16 p.width ++ wrU16 p.height ++ wrU8 0x10 ++ wrU16 p.comp_num ++
    wrU8 (csByte p.comp_state) ++ wrU8 (if p.pal_update then 0x80 else 0x00) ++
    wrU8 p.pal_id ++ wrU8 p.comp_objs.length ++ wrList wrCompObj p.comp_objs

/-- Serialize one window record. -/
def wrWin (w : WinDefRec) : List Byte :=
  wrU8 w.id ++ wrU16 w.x ++ wrU16 w.y ++ wrU16 w.width ++ wrU16 w.height

/-- Serialize one palette entry. -/
def wrPalEntry (e : PalEntry) : List Byte :=
  wrU8 e.idx ++ wrU8 e.y ++ wrU8 e.cr ++ wrU8 e.cb ++ wrU8 e.alpha

/-- Serialize a segment body. -/
def wrBody : SegBody → List Byte
  | .presComp p => wrPcs p
  | .winDef ws => wrU8 ws.length ++ wrList wrWin ws
  | .palDef p => wrU8 p.pal_id ++ wrU8 p.version ++ wrList wrPalEntry p.entries
  | .objDef o =>
    wrU16 o.obj_id ++ wrU8 o.version ++ wrU8 o.seq_flag ++
      wrU24 o.payload.length ++ wrU16 o.width ++ wrU16 o.height ++ o.payload
  | .endSeg => []

/-- The kind byte of a segment body. -/
def kindByte : SegBody → Nat
  | .presComp _ => 0x16
  | .winDef _ => 0x17
  | .palDef _ => 0x14
  | .objDef _ => 0x15
  | .endSeg => 0x80

/-- Serialize one whole segment, recomputing the body-size field from the
actual body content. -/
def writeSeg (seg : Seg) : List Byte :=
  wrU16 0x5047 ++ wrU32 seg.pts ++ wrU32 seg.dts ++ wrU8 (kindByte seg.body) ++
    wrU16 (wrBody seg.body).length ++ wrBody seg.body

lemma wadd_eq_of_lt {a b : Nat} (h : a + b < 65536) : wadd a b = a + b := by
  unfold wadd; omega

lemma wsub_eq_of_le {a b : Nat} (hba : b ≤ a) (ha : a < 65536) : wsub a b = a - b := by
  unfold wsub; omega

lemma wmul_two_eq {m : Nat} (h : 2 * m < 65536) : wmul 2 m = 2 * m := by
  unfold wmul; omega

/-- C1 counterexample: the claim quantifies over every call with
`item_size + 2*margin ≤ crop`, but the unchecked u16 arithmetic diverges from
the clamp of the (possibly negative) shifted offset.  At
`(1920, 1280, 100, 0, 30)` the subtraction underflows and the code yields
1150 where the clamp description yields 30; at `(65535, 65535, 1, 65535, 0)`
the addition in the upper-bound test wraps and the code yields 65535 where
the clamp description yields 65534. -/
theorem cropped_offset_spec_clamp_cex :
    (100 + 2 * 30 ≤ 1280 ∧
      cropped_offset 1920 1280 100 0 30 = 1150 ∧
      clampSpec 1920 1280 100 0 30 = 30) ∧
    (1 + 2 * 0 ≤ 65535 ∧
      cropped_offset 65535 65535 1 65535 0 = 65535 ∧
      clampSpec 65535 65535 1 65535 0 = 65534) := by
  decide

/-- C1 (amended): whenever `item_size + 2*margin ≤ crop` and additionally
`full ≥ crop`, `offset ≥ (full - crop) / 2` and
`offset + item_size + margin ≤ 65535` (so that no u16 operation underflows or
wraps), the result equals the clamp of
`shifted = offset - (full - crop) / 2` into `[margin, crop - item_size - margin]`:
`margin` when `shifted < margin`, `crop - item_size - margin` when
`shifted + item_size + margin > crop`, and `shifted` otherwise. -/
theorem cropped_offset_clamps_amended
    (full crop size offset margin : Nat)
    (hfit : size + 2 * margin ≤ crop)
    (hcf : crop ≤ full) (hf : full < 65536)
    (hshift : (full - crop) / 2 ≤ offset)
    (hbound : offset + size + margin ≤ 65535) :
    (cropped_offset full crop size offset margin : Int) =
      clampSpec full crop size offset margin := by
  have hc : crop < 65536 := by omega
  have ho : offset < 65536 := by omega
  have hdiv : Int.tdiv ((full : Int) - (crop : Int)) 2 = (((full - crop) / 2 : Nat) : Int) := by
    have hfc : ((full : Int) - (crop : Int)) = (((full - crop : Nat)) : Int) := by omega
    rw [hfc]; rfl
  have h1 : wmul 2 margin = 2 * margin := wmul_two_eq (by omega)
  have h2 : wadd size (2 * margin) = size + 2 * margin := wadd_eq_of_lt (by omega)
  have h3 : wsub full crop = full - crop := wsub_eq_of_le hcf hf
  have h4 : wsub offset ((full - crop) / 2) = offset - (full - crop) / 2 :=
    wsub_eq_of_le hshift ho
  have h5 : wadd (offset - (full - crop) / 2) size = offset - (full - crop) / 2 + size :=
    wadd_eq_of_lt (by omega)
  have h6 : wadd (offset - (full - crop) / 2 + size) margin =
      offset - (full - crop) / 2 + size + margin := wadd_eq_of_lt (by omega)
  have h7 : wsub crop size = crop - size := wsub_eq_of_le (by omega) hc
  have h8 : wsub (crop - size) margin = crop - size - margin :=
    wsub_eq_of_le (by omega) (by omega)
  simp only [cropped_offset, cropped_offsetW, clampSpec, hdiv, h1, h2, h3, h4, h5, h6,
    h7, h8]
  split_ifs <;> omega

/-- C1 witness: at `(1920, 1280, 100, 960, 30)` the amended preconditions
hold, the result agrees with the specified clamp, its value is 640, and it
lies in the interval `[30, 1150]`. -/
theorem cropped_offset_clamps_amended_witness :
    (100 + 2 * 30 ≤ 1280 ∧ 1280 ≤ 1920 ∧ 1920 < 65536 ∧
      (1920 - 1280) / 2 ≤ 960 ∧ 960 + 100 + 30 ≤ 65535) ∧
    (cropped_offset 1920 1280 100 960 30 : Int) = clampSpec 1920 1280 100 960 30 ∧
    cropped_offset 1920 1280 100 960 30 = 640 ∧
    30 ≤ cropped_offset 1920 1280 100 960 30 ∧
    cropped_offset 1920 1280 100 960 30 ≤ 1150 :=
  ⟨by decide,
    cropped_offset_clamps_amended 1920 1280 100 960 30 (by decide) (by decide)
      (by decide) (by decide) (by decide),
    by decide, by decide, by decide⟩

/-- C4 counterexample: with `full = crop = 1920` the function is not the
identity on every valid input: at `item_size = 100`, `offset = 0`,
`margin = 30` (valid, since `100 + 60 ≤ 1920`) the result is the lower
margin clamp 30, not the offset 0. -/
theorem cropped_offset_identity_cex :
    100 + 2 * 30 ≤ 1920 ∧
    cropped_offset 1920 1920 100 0 30 = 30 ∧
    cropped_offset 1920 1920 100 0 30 ≠ 0 := by
  decide

/-- C4 (amended): with `full = crop = 1920` the function is the identity on
the offset for every valid item size, offset and margin that already respect
the margins, i.e. whenever `item_size + 2*margin ≤ 1920`, `margin ≤ offset`
and `offset + item_size + margin ≤ 1920`. -/
theorem cropped_offset_identity_amended
    (size offset margin : Nat)
    (hfit : size + 2 * margin ≤ 1920)
    (hlo : margin ≤ offset)
    (hhi : offset + size + margin ≤ 1920) :
    cropped_offset 1920 1920 size offset margin = offset := by
  have h1 : wmul 2 margin = 2 * margin := wmul_two_eq (by omega)
  have h2 : wadd size (2 * margin) = size + 2 * margin := wadd_eq_of_lt (by omega)
  have h3 : wsub 1920 1920 = 0 := by unfold wsub; omega
  have h4 : wsub offset 0 = offset := wsub_eq_of_le (by omega) (by omega)
  have h5 : wadd offset size = offset + size := wadd_eq_of_lt (by omega)
  have h6 : wadd (offset + size) margin = offset + size + margin := wadd_eq_of_lt (by omega)
  simp only [cropped_offset, cropped_offsetW, h1, h2, h3, h4, h5, h6]
  norm_num
  split_ifs <;> omega

/-- C4 witness: at `item_size = 100`, `offset = 500`, `margin = 30` the
amended preconditions hold and the result is 500. -/
theorem cropped_offset_identity_amended_witness :
    (100 + 2 * 30 ≤ 1920 ∧ 30 ≤ 500 ∧ 500 + 100 + 30 ≤ 1920) ∧
    cropped_offset 1920 1920 100 500 30 = 500 :=
  ⟨by decide, cropped_offset_identity_amended 100 500 30 (by decide) (by decide) (by decide)⟩

/-- C5 counterexample: the claim quantifies over every call with
`item_size + 2*margin > crop`, but when `2 * margin` itself overflows u16
the wrapping code misses the warning branch entirely: at
`(100, 100, 0, 50, 32768)` the exact `item_size + 2*margin = 65536` exceeds
the crop 100, yet the result is 32768 with no warning, and the checked
(debug) semantics aborts on the multiplication overflow. -/
theorem margin_violation_cex :
    0 + 2 * 32768 > 100 ∧
    cropped_offsetW 100 100 0 50 32768 = (32768, false) ∧
    cropped_offsetChecked 100 100 0 50 32768 = none := by
  decide

/-- C5 (amended): whenever `item_size + 2*margin > crop` and additionally
`item_size + 2*margin ≤ 65535` (the guard computation fits in u16), the
result is exactly 0 with the non-fatal warning emitted, in both the wrapping
and the checked semantics; in particular the checked semantics does not
abort, so the case never produces an error. -/
theorem margin_violation_amended (full crop size offset margin : Nat)
    (h16 : size + 2 * margin ≤ 65535)
    (hgt : size + 2 * margin > crop) :
    cropped_offsetW full crop size offset margin = (0, true) ∧
    cropped_offsetChecked full crop size offset margin = some (0, true) := by
  have h1 : wmul 2 margin = 2 * margin := wmul_two_eq (by omega)
  have h2 : wadd size (2 * margin) = size + 2 * margin := wadd_eq_of_lt (by omega)
  constructor
  · simp only [cropped_offsetW, h1, h2]
    rw [if_pos hgt]
  · simp only [cropped_offsetChecked]
    rw [if_pos (by omega : 2 * margin < 65536),
      if_pos (by omega : size + 2 * margin < 65536), if_pos hgt]

/-- C5 witness: at `(100, 50, 40, 10, 20)` the amended preconditions hold
and the result is 0 with the warning flag set, in both semantics. -/
theorem margin_violation_amended_witness :
    (40 + 2 * 20 ≤ 65535 ∧ 40 + 2 * 20 > 50) ∧
    cropped_offsetW 100 50 40 10 20 = (0, true) ∧
    cropped_offsetChecked 100 50 40 10 20 = some (0, true) :=
  ⟨by decide, margin_violation_amended 100 50 40 10 20 (by decide) (by decide)⟩

/-- C8 counterexample: the claimed preconditions `full ≥ crop`,
`offset ≥ (full - crop) / 2` and `item_size + 2*margin ≤ 65535` all hold at
`(65535, 65535, 1, 65535, 0)`, yet the addition
`new_offset + item_size` wraps, so under them the function is not total: the
checked evaluation fails. -/
theorem cropped_offset_checked_cex :
    (65535 ≤ 65535 ∧ (65535 - 65535) / 2 ≤ 65535 ∧ 1 + 2 * 0 ≤ 65535) ∧
    cropped_offsetChecked 65535 65535 1 65535 0 = none := by
  decide

set_option maxHeartbeats 1600000 in
/-- C8 (amended): with the additional precondition
`offset + item_size + margin ≤ 65535`, no u16 operation inside
`cropped_offset` wraps or underflows — the checked evaluation succeeds —
and the preconditions are necessary: whenever the margin-fit guard passes
(`item_size + 2*margin ≤ crop` with `full < 65536` and `crop ≤ full`) and
`offset < (full - crop) / 2`, the subtraction `offset - (full - crop) / 2`
underflows and the checked evaluation fails. -/
theorem cropped_offset_checked_amended (full crop size offset margin : Nat) :
    (crop ≤ full → (full - crop) / 2 ≤ offset → size + 2 * margin ≤ 65535 →
      offset + size + margin ≤ 65535 →
      (cropped_offsetChecked full crop size offset margin).isSome = true) ∧
    (full < 65536 → crop ≤ full → size + 2 * margin ≤ crop →
      offset < (full - crop) / 2 →
      cropped_offsetChecked full crop size offset margin = none) := by
  constructor
  · intro hcf hshift h16 hbound
    simp only [cropped_offsetChecked]
    split_ifs <;> first | rfl | (exfalso; omega)
  · intro hf hcf hfit hlt
    simp only [cropped_offsetChecked]
    split_ifs <;> first | rfl | (exfalso; omega)

/-- C8 witness: at `(1920, 1280, 100, 960, 30)` the amended preconditions
hold and the checked evaluation succeeds; at `(1920, 1280, 100, 100, 30)`
the offset lies left of the removed band, the subtraction underflows, and
the checked evaluation fails. -/
theorem cropped_offset_checked_amended_witness :
    (1280 ≤ 1920 ∧ (1920 - 1280) / 2 ≤ 960 ∧ 100 + 2 * 30 ≤ 65535 ∧
      960 + 100 + 30 ≤ 65535 ∧
      (cropped_offsetChecked 1920 1280 100 960 30).isSome = true) ∧
    (1920 < 65536 ∧ 1280 ≤ 1920 ∧ 100 + 2 * 30 ≤ 1280 ∧ 100 < (1920 - 1280) / 2 ∧
      cropped_offsetChecked 1920 1280 100 100 30 = none) :=
  ⟨⟨by decide, by decide, by decide, by decide,
      (cropped_offset_checked_amended 1920 1280 100 960 30).1 (by decide) (by decide)
        (by decide) (by decide)⟩,
    ⟨by decide, by decide, by decide, by decide,
      (cropped_offset_checked_amended 1920 1280 100 100 30).2 (by decide) (by decide)
        (by decide) (by decide)⟩⟩

/-- C2 counterexample: a display set whose two windows are outputs of the
remap (full size 65535×100 cropped to 65535×100 with margin 30) in which the
top-left corner of the second window lies inside the exact rectangle
`[x, x+width] × [y, y+height]` of the first, yet the wrapping u16 addition
`x + width` overflows, the comparison misfires and the collision validator
accepts the display set instead of aborting. -/
theorem window_collision_iff_cex :
    demoRemappedWindows = [(1, ⟨65000, 0, 1000, 100⟩), (2, ⟨65500, 50, 10, 10⟩)] ∧
    checkWindows 7 demoRemappedWindows = .ok () ∧
    (65000 ≤ 65500 ∧ 65500 ≤ 65000 + 1000 ∧ 0 ≤ 50 ∧ 50 ≤ 0 + 100) :=
  ⟨by decide, by rfl, by decide⟩

/-- C2 (amended): for every remapped display set all of whose windows have
`x + width ≤ 65535` and `y + height ≤ 65535` (so that the u16 rectangle
bounds do not wrap), the run aborts with the fatal collision error naming
the display set's presentation timestamp if and only if some pair of windows
with distinct identifiers has the top-left corner of one inside (boundary
inclusive) the rectangle `[x, x+width] × [y, y+height]` of the other; in
particular two windows neither of whose rectangles contains the other's
top-left corner never trigger the fatal path. -/
theorem window_collision_iff_amended (pts : Nat) (ws : List (Nat × DsWindow))
    (hrange : ∀ p ∈ ws, p.2.x + p.2.width ≤ 65535 ∧ p.2.y + p.2.height ≤ 65535) :
    checkWindows pts ws = .error pts ↔
      ∃ p1 ∈ ws, ∃ p2 ∈ ws, p1.1 ≠ p2.1 ∧
        p1.2.x ≤ p2.2.x ∧ p2.2.x ≤ p1.2.x + p1.2.width ∧
        p1.2.y ≤ p2.2.y ∧ p2.2.y ≤ p1.2.y + p1.2.height := by
  have key : collisionFound ws = true ↔
      ∃ p1 ∈ ws, ∃ p2 ∈ ws, p1.1 ≠ p2.1 ∧
        p1.2.x ≤ p2.2.x ∧ p2.2.x ≤ p1.2.x + p1.2.width ∧
        p1.2.y ≤ p2.2.y ∧ p2.2.y ≤ p1.2.y + p1.2.height := by
    unfold collisionFound cornerInside
    simp only [List.any_eq_true, Bool.and_eq_true, decide_eq_true_eq]
    constructor
    · rintro ⟨p1, hp1, p2, hp2, hne, ⟨⟨h1, h2⟩, h3⟩, h4⟩
      have hr := hrange p1 hp1
      rw [wadd_eq_of_lt (by omega)] at h2
      rw [wadd_eq_of_lt (by omega)] at h4
      exact ⟨p1, hp1, p2, hp2, hne, h1, h2, h3, h4⟩
    · rintro ⟨p1, hp1, p2, hp2, hne, h1, h2, h3, h4⟩
      have hr := hrange p1 hp1
      refine ⟨p1, hp1, p2, hp2, hne, ⟨⟨h1, ?_⟩, h3⟩, ?_⟩
      · rw [wadd_eq_of_lt (by omega)]; exact h2
      · rw [wadd_eq_of_lt (by omega)]; exact h4
  unfold checkWindows
  split_ifs with h
  · exact ⟨fun _ => key.mp h, fun _ => rfl⟩
  · constructor
    · intro hcontra; exact absurd hcontra (by simp)
    · intro hex; exact absurd (key.mpr hex) h

/-- C2 witness: two in-range windows, the corner of the second inside the
rectangle of the first; the validator aborts with the fatal collision error
naming the presentation timestamp 5. -/
theorem window_collision_iff_amended_witness :
    (∀ p ∈ demoCollidingWindows,
      p.2.x + p.2.width ≤ 65535 ∧ p.2.y + p.2.height ≤ 65535) ∧
    checkWindows 5 demoCollidingWindows = .error 5 :=
  ⟨by decide,
    (window_collision_iff_amended 5 demoCollidingWindows (by decide)).mpr
      ⟨(1, ⟨10, 10, 100, 100⟩), by decide, (2, ⟨50, 50, 20, 20⟩), by decide,
        by decide, by decide, by decide, by decide, by decide⟩⟩

/-- C9: grading a display set with any per-entry colour transform changes at
most the luma, chroma-blue and chroma-red bytes of its palette entries: the
presentation timestamp, screen size, composition objects, windows and object
definitions are untouched, the set of palette identifiers and the set of
entry indices of each palette are preserved, and every entry keeps its alpha
byte. -/
theorem grade_preserves_structure (g : Nat → Nat → Nat → Nat × Nat × Nat)
    (ds : DisplaySet) :
    (gradeDisplaySet g ds).pts = ds.pts ∧
    (gradeDisplaySet g ds).width = ds.width ∧
    (gradeDisplaySet g ds).height = ds.height ∧
    (gradeDisplaySet g ds).compObjs = ds.compObjs ∧
    (gradeDisplaySet g ds).windows = ds.windows ∧
    (gradeDisplaySet g ds).objects = ds.objects ∧
    (gradeDisplaySet g ds).palettes.map Prod.fst = ds.palettes.map Prod.fst ∧
    (gradeDisplaySet g ds).palettes.map (fun p => p.2.entries.map Prod.fst) =
      ds.palettes.map (fun p => p.2.entries.map Prod.fst) ∧
    (gradeDisplaySet g ds).palettes.map (fun p => p.2.entries.map fun e => e.2.alpha) =
      ds.palettes.map (fun p => p.2.entries.map fun e => e.2.alpha) := by
  unfold gradeDisplaySet gradeEntry
  refine ⟨rfl, rfl, rfl, rfl, rfl, rfl, ?_, ?_, ?_⟩ <;>
    simp [List.map_map, Function.comp_def]

/-- C10: a display set containing at most one window can never reach the
fatal window-collision path: the double loop only compares windows whose
identifiers are distinct, so a window is never compared with itself and the
validator accepts. -/
theorem single_window_no_collision (pts : Nat) (ws : List (Nat × DsWindow))
    (h : ws.length ≤ 1) : checkWindows pts ws = .ok () := by
  cases ws with
  | nil => rfl
  | cons p t =>
    cases t with
    | nil => simp [checkWindows, collisionFound]
    | cons q t2 => simp [List.length_cons] at h

lemma wrU8_val (b : Byte) : wrU8 b.val = [b] := by
  simp [wrU8, Nat.mod_eq_of_lt b.isLt]

lemma pbind_ok {A B : Type} {x : Except SegError (A × List Byte)}
    {k : A → List Byte → Except SegError B} {b : B}
    (h : pbind x k = .ok b) : ∃ v r, x = .ok (v, r) ∧ k v r = .ok b := by
  cases x with
  | error e => exact absurd h (by simp [pbind])
  | ok p =>
    obtain ⟨v, r⟩ := p
    exact ⟨v, r, rfl, h⟩

lemma rdU8_inv {bs : List Byte} {v : Nat} {r : List Byte} (h : rdU8 bs = .ok (v, r)) :
    v < 256 ∧ bs = wrU8 v ++ r := by
  cases bs with
  | nil => simp [rdU8] at h
  | cons b t =>
    simp only [rdU8, Except.ok.injEq, Prod.mk.injEq] at h
    obtain ⟨hv, hr⟩ := h
    subst hv; subst hr
    exact ⟨b.isLt, by simp [wrU8_val]⟩

lemma rdU16_inv {bs : List Byte} {v : Nat} {r : List Byte} (h : rdU16 bs = .ok (v, r)) :
    v < 65536 ∧ bs = wrU16 v ++ r := by
  rcases bs with - | ⟨a, - | ⟨b, t⟩⟩
  · simp [rdU16] at h
  · simp [rdU16] at h
  · simp only [rdU16, Except.ok.injEq, Prod.mk.injEq] at h
    obtain ⟨hv, hr⟩ := h
    subst hv; subst hr
    have ha := a.isLt
    have hb := b.isLt
    refine ⟨by omega, ?_⟩
    simp only [wrU16, wrU8, List.cons_append, List.nil_append, List.cons.injEq]
    refine ⟨?_, ?_, trivial⟩ <;> (rw [Fin.ext_iff]; simp; omega)

lemma rdU24_inv {bs : List Byte} {v : Nat} {r : List Byte} (h : rdU24 bs = .ok (v, r)) :
    v < 16777216 ∧ bs = wrU24 v ++ r := by
  rcases bs with - | ⟨a, - | ⟨b, - | ⟨c, t⟩⟩⟩
  · simp [rdU24] at h
  · simp [rdU24] at h
  · simp [rdU24] at h
  · simp only [rdU24, Except.ok.injEq, Prod.mk.injEq] at h
    obtain ⟨hv, hr⟩ := h
    subst hv; subst hr
    have ha := a.isLt
    have hb := b.isLt
    have hc := c.isLt
    refine ⟨by omega, ?_⟩
    simp only [wrU24, wrU8, List.cons_append, List.nil_append, List.cons.injEq]
    refine ⟨?_, ?_, ?_, trivial⟩ <;> (rw [Fin.ext_iff]; simp; omega)

lemma rdU32_inv {bs : List Byte} {v : Nat} {r : List Byte} (h : rdU32 bs = .ok (v, r)) :
    v < 4294967296 ∧ bs = wrU32 v ++ r := by
  rcases bs with - | ⟨a, - | ⟨b, - | ⟨c, - | ⟨d, t⟩⟩⟩⟩
  · simp [rdU32] at h
  · simp [rdU32] at h
  · simp [rdU32] at h
  · simp [rdU32] at h
  · simp only [rdU32, Except.ok.injEq, Prod.mk.injEq] at h
    obtain ⟨hv, hr⟩ := h
    subst hv; subst hr
    have ha := a.isLt
    have hb := b.isLt
    have hc := c.isLt
    have hd := d.isLt
    refine ⟨by omega, ?_⟩
    simp only [wrU32, wrU8, List.cons_append, List.nil_append, List.cons.injEq]
    refine ⟨?_, ?_, ?_, ?_, trivial⟩ <;> (rw [Fin.ext_iff]; simp; omega)

lemma rdBytes_inv {n : Nat} {bs pl r : List Byte} (h : rdBytes n bs = .ok (pl, r)) :
    pl.length = n ∧ bs = pl ++ r := by
  unfold rdBytes at h
  split_ifs at h with hle
  simp only [Except.ok.injEq, Prod.mk.injEq] at h
  obtain ⟨hp, hr⟩ := h
  subst hp; subst hr
  refine ⟨?_, (List.take_append_drop n bs).symm⟩
  rw [List.length_take]
  omega

lemma parseWin_inv {bs : List Byte} {w : WinDefRec} {r : List Byte}
    (h : parseWin bs = .ok (w, r)) : bs = wrWin w ++ r := by
  unfold parseWin at h
  obtain ⟨id, bs1, h1, h⟩ := pbind_ok h
  obtain ⟨x, bs2, h2, h⟩ := pbind_ok h
  obtain ⟨y, bs3, h3, h⟩ := pbind_ok h
  obtain ⟨width, bs4, h4, h⟩ := pbind_ok h
  obtain ⟨height, bs5, h5, h⟩ := pbind_ok h
  simp only [Except.ok.injEq, Prod.mk.injEq] at h
  obtain ⟨hw, hr⟩ := h
  subst hw; subst hr
  obtain ⟨-, e1⟩ := rdU8_inv h1
  obtain ⟨-, e2⟩ := rdU16_inv h2
  obtain ⟨-, e3⟩ := rdU16_inv h3
  obtain ⟨-, e4⟩ := rdU16_inv h4
  obtain ⟨-, e5⟩ := rdU16_inv h5
  subst e1; subst e2; subst e3; subst e4; subst e5
  simp [wrWin]

lemma parseWins_inv (n : Nat) :
    ∀ {bs : List Byte} {ws : List WinDefRec} {r : List Byte},
      parseWins n bs = .ok (ws, r) → ws.length = n ∧ bs = wrList wrWin ws ++ r := by
  induction n with
  | zero =>
    intro bs ws r h
    unfold parseWins at h
    simp only [Except.ok.injEq, Prod.mk.injEq] at h
    obtain ⟨hw, hr⟩ := h
    subst hw; subst hr
    exact ⟨rfl, by simp [wrList]⟩
  | succ n ih =>
    intro bs ws r h
    unfold parseWins at h
    obtain ⟨w, bs1, h1, h⟩ := pbind_ok h
    obtain ⟨tl, bs2, h2, h⟩ := pbind_ok h
    simp only [Except.ok.injEq, Prod.mk.injEq] at h
    obtain ⟨hw, hr⟩ := h
    subst hw; subst hr
    obtain ⟨hlen, e2⟩ := ih h2
    have e1 := parseWin_inv h1
    subst e1; subst e2
    exact ⟨by simp [hlen], by simp [wrList]⟩

lemma parseWds_inv {bs : List Byte} {ws : List WinDefRec} {r : List Byte}
    (h : parseWds bs = .ok (ws, r)) :
    ws.length < 256 ∧ bs = wrU8 ws.length ++ wrList wrWin ws ++ r := by
  unfold parseWds at h
  obtain ⟨cnt, bs1, h1, h⟩ := pbind_ok h
  obtain ⟨hcnt, e1⟩ := rdU8_inv h1
  obtain ⟨hlen, e2⟩ := parseWins_inv cnt h
  subst e1; subst e2; subst hlen
  exact ⟨hcnt, by simp⟩

lemma parsePalEntriesAux (n : Nat) :
    ∀ {bs : List Byte} {es : List PalEntry}, bs.length ≤ n →
      parsePalEntries bs = .ok es → bs = wrList wrPalEntry es := by
  induction n with
  | zero =>
    intro bs es hl h
    cases bs with
    | nil =>
      simp only [parsePalEntries, Except.ok.injEq] at h
      subst h
      simp [wrList]
    | cons b t => simp at hl
  | succ n ih =>
    intro bs es hl h
    rcases bs with - | ⟨i, - | ⟨y, - | ⟨cr, - | ⟨cb, - | ⟨a, rest⟩⟩⟩⟩⟩
    · simp only [parsePalEntries, Except.ok.injEq] at h
      subst h
      simp [wrList]
    · simp [parsePalEntries] at h
    · simp [parsePalEntries] at h
    · simp [parsePalEntries] at h
    · simp [parsePalEntries] at h
    · unfold parsePalEntries at h
      cases hrec : parsePalEntries rest with
      | error e => rw [hrec] at h; exact absurd h (by simp)
      | ok tl =>
        rw [hrec] at h
        simp only [Except.ok.injEq] at h
        subst h
        have hrl : rest.length ≤ n := by
          simp only [List.length_cons] at hl
          omega
        have e := ih hrl hrec
        rw [wrList]
        simp only [wrPalEntry, wrU8_val, ← e]
        simp

lemma parsePalEntries_inv {bs : List Byte} {es : List PalEntry}
    (h : parsePalEntries bs = .ok es) : bs = wrList wrPalEntry es :=
  parsePalEntriesAux bs.length le_rfl h

lemma parsePds_inv {bs : List Byte} {p : PalSeg} {r : List Byte}
    (h : parsePds bs = .ok (p, r)) :
    r = [] ∧ bs = wrU8 p.pal_id ++ wrU8 p.version ++ wrList wrPalEntry p.entries := by
  unfold parsePds at h
  obtain ⟨pal_id, bs1, h1, h⟩ := pbind_ok h
  obtain ⟨version, bs2, h2, h⟩ := pbind_ok h
  cases hpe : parsePalEntries bs2 with
  | error e => rw [hpe] at h; exact absurd h (by simp)
  | ok es =>
    rw [hpe] at h
    simp only [Except.ok.injEq, Prod.mk.injEq] at h
    obtain ⟨hp, hr⟩ := h
    subst hp; subst hr
    obtain ⟨-, e1⟩ := rdU8_inv h1
    obtain ⟨-, e2⟩ := rdU8_inv h2
    have e3 := parsePalEntries_inv hpe
    subst e1; subst e2; subst e3
    exact ⟨rfl, by simp⟩

lemma parseOds_inv {bs : List Byte} {o : ObjSeg} {r : List Byte}
    (h : parseOds bs = .ok (o, r)) :
    o.payload.length < 16777216 ∧
      bs = wrU16 o.obj_id ++ wrU8 o.version ++ wrU8 o.seq_flag ++
        wrU24 o.payload.length ++ wrU16 o.width ++ wrU16 o.height ++ o.payload ++ r := by
  unfold parseOds at h
  obtain ⟨obj_id, bs1, h1, h⟩ := pbind_ok h
  obtain ⟨version, bs2, h2, h⟩ := pbind_ok h
  obtain ⟨seq_flag, bs3, h3, h⟩ := pbind_ok h
  obtain ⟨len, bs4, h4, h⟩ := pbind_ok h
  obtain ⟨width, bs5, h5, h⟩ := pbind_ok h
  obtain ⟨height, bs6, h6, h⟩ := pbind_ok h
  obtain ⟨payload, bs7, h7, h⟩ := pbind_ok h
  simp only [Except.ok.injEq, Prod.mk.injEq] at h
  obtain ⟨ho, hr⟩ := h
  subst ho; subst hr
  obtain ⟨-, e1⟩ := rdU16_inv h1
  obtain ⟨-, e2⟩ := rdU8_inv h2
  obtain ⟨-, e3⟩ := rdU8_inv h3
  obtain ⟨hlen, e4⟩ := rdU24_inv h4
  obtain ⟨-, e5⟩ := rdU16_inv h5
  obtain ⟨-, e6⟩ := rdU16_inv h6
  obtain ⟨hpl, e7⟩ := rdBytes_inv h7
  subst e1; subst e2; subst e3; subst e4; subst e5; subst e6; subst e7
  subst hpl
  exact ⟨hlen, by simp⟩

lemma parseCompObj_inv {bs : List Byte} {o : CompObj} {r : List Byte}
    (h : parseCompObj bs = .ok (o, r)) : bs = wrCompObj o ++ r := by
  unfold parseCompObj at h
  obtain ⟨obj_id, bs1, h1, h⟩ := pbind_ok h
  obtain ⟨win_id, bs2, h2, h⟩ := pbind_ok h
  obtain ⟨flag, bs3, h3, h⟩ := pbind_ok h
  by_cases hf : flag = 0x40
  · rw [if_pos hf] at h
    obtain ⟨x, bs4, h4, h⟩ := pbind_ok h
    obtain ⟨y, bs5, h5, h⟩ := pbind_ok h
    obtain ⟨cx, bs6, h6, h⟩ := pbind_ok h
    obtain ⟨cy, bs7, h7, h⟩ := pbind_ok h
    obtain ⟨cw, bs8, h8, h⟩ := pbind_ok h
    obtain ⟨ch, bs9, h9, h⟩ := pbind_ok h
    simp only [Except.ok.injEq, Prod.mk.injEq] at h
    obtain ⟨ho, hr⟩ := h
    subst ho; subst hr; subst hf
    obtain ⟨-, e1⟩ := rdU16_inv h1
    obtain ⟨-, e2⟩ := rdU8_inv h2
    obtain ⟨-, e3⟩ := rdU8_inv h3
    obtain ⟨-, e4⟩ := rdU16_inv h4
    obtain ⟨-, e5⟩ := rdU16_inv h5
    obtain ⟨-, e6⟩ := rdU16_inv h6
    obtain ⟨-, e7⟩ := rdU16_inv h7
    obtain ⟨-, e8⟩ := rdU16_inv h8
    obtain ⟨-, e9⟩ := rdU16_inv h9
    subst e1; subst e2; subst e3; subst e4; subst e5; subst e6; subst e7
    subst e8; subst e9
    simp [wrCompObj]
  · rw [if_neg hf] at h
    by_cases hf0 : flag = 0x00
    · rw [if_pos hf0] at h
      obtain ⟨x, bs4, h4, h⟩ := pbind_ok h
      obtain ⟨y, bs5, h5, h⟩ := pbind_ok h
      simp only [Except.ok.injEq, Prod.mk.injEq] at h
      obtain ⟨ho, hr⟩ := h
      subst ho; subst hr; subst hf0
      obtain ⟨-, e1⟩ := rdU16_inv h1
      obtain ⟨-, e2⟩ := rdU8_inv h2
      obtain ⟨-, e3⟩ := rdU8_inv h3
      obtain ⟨-, e4⟩ := rdU16_inv h4
      obtain ⟨-, e5⟩ := rdU16_inv h5
      subst e1; subst e2; subst e3; subst e4; subst e5
      simp [wrCompObj]
    · rw [if_neg hf0] at h
      exact absurd h (by simp)

lemma parseCompObjs_inv (n : Nat) :
    ∀ {bs : List Byte} {os : List CompObj} {r : List Byte},
      parseCompObjs n bs = .ok (os, r) →
        os.length = n ∧ bs = wrList wrCompObj os ++ r := by
  induction n with
  | zero =>
    intro bs os r h
    unfold parseCompObjs at h
    simp only [Except.ok.injEq, Prod.mk.injEq] at h
    obtain ⟨ho, hr⟩ := h
    subst ho; subst hr
    exact ⟨rfl, by simp [wrList]⟩
  | succ n ih =>
    intro bs os r h
    unfold parseCompObjs at h
    obtain ⟨o, bs1, h1, h⟩ := pbind_ok h
    obtain ⟨tl, bs2, h2, h⟩ := pbind_ok h
    simp only [Except.ok.injEq, Prod.mk.injEq] at h
    obtain ⟨ho, hr⟩ := h
    subst ho; subst hr
    obtain ⟨hlen, e2⟩ := ih h2
    have e1 := parseCompObj_inv h1
    subst e1; subst e2
    exact ⟨by simp [hlen], by simp [wrList]⟩

lemma parsePcs_inv {bs : List Byte} {p : PresCompSeg} {r : List Byte}
    (h : parsePcs bs = .ok (p, r)) : bs = wrPcs p ++ r := by
  unfold parsePcs at h
  obtain ⟨width, bs1, h1, h⟩ := pbind_ok h
  obtain ⟨height, bs2, h2, h⟩ := pbind_ok h
  obtain ⟨fr, bs3, h3, h⟩ := pbind_ok h
  by_cases hfr : fr = 0x10
  · rw [if_pos hfr] at h
    obtain ⟨comp_num, bs4, h4, h⟩ := pbind_ok h
    obtain ⟨cs, bs5, h5, h⟩ := pbind_ok h
    by_cases hcs : cs = 0x00 ∨ cs = 0x40 ∨ cs = 0x80
    · rw [if_pos hcs] at h
      obtain ⟨pu, bs6, h6, h⟩ := pbind_ok h
      by_cases hpu : pu = 0x00 ∨ pu = 0x80
      · rw [if_pos hpu] at h
        obtain ⟨pal_id, bs7, h7, h⟩ := pbind_ok h
        obtain ⟨cnt, bs8, h8, h⟩ := pbind_ok h
        obtain ⟨objs, bs9, h9, h⟩ := pbind_ok h
        simp only [Except.ok.injEq, Prod.mk.injEq] at h
        obtain ⟨hp, hr⟩ := h
        subst hp; subst hr; subst hfr
        obtain ⟨-, e1⟩ := rdU16_inv h1
        obtain ⟨-, e2⟩ := rdU16_inv h2
        obtain ⟨-, e3⟩ := rdU8_inv h3
        obtain ⟨-, e4⟩ := rdU16_inv h4
        obtain ⟨-, e5⟩ := rdU8_inv h5
        obtain ⟨-, e6⟩ := rdU8_inv h6
        obtain ⟨-, e7⟩ := rdU8_inv h7
        obtain ⟨-, e8⟩ := rdU8_inv h8
        obtain ⟨hlen, e9⟩ := parseCompObjs_inv cnt h9
        subst e1; subst e2; subst e3; subst e4; subst e5; subst e6; subst e7
        subst e8; subst e9; subst hlen
        rcases hcs with hcs | hcs | hcs <;> rcases hpu with hpu | hpu <;>
          subst hcs <;> subst hpu <;> simp [wrPcs, csByte]
      · rw [if_neg hpu] at h
        exact absurd h (by simp)
    · rw [if_neg hcs] at h
      exact absurd h (by simp)
  · rw [if_neg hfr] at h
    exact absurd h (by simp)

lemma parseBody_inv {kind : Nat} {bb : List Byte} {body : SegBody} {rem : List Byte}
    (h : parseBody kind bb = .ok (body, rem)) :
    kindByte body = kind ∧ bb = wrBody body ++ rem := by
  unfold parseBody at h
  split_ifs at h with h16 h17 h14 h15 h80
  · obtain ⟨p, r, hp, h⟩ := pbind_ok h
    simp only [Except.ok.injEq, Prod.mk.injEq] at h
    obtain ⟨hb, hr⟩ := h
    subst hb; subst hr; subst h16
    exact ⟨rfl, by simpa [wrBody] using parsePcs_inv hp⟩
  · obtain ⟨ws, r, hp, h⟩ := pbind_ok h
    simp only [Except.ok.injEq, Prod.mk.injEq] at h
    obtain ⟨hb, hr⟩ := h
    subst hb; subst hr; subst h17
    obtain ⟨-, e⟩ := parseWds_inv hp
    exact ⟨rfl, by simpa [wrBody] using e⟩
  · obtain ⟨p, r, hp, h⟩ := pbind_ok h
    simp only [Except.ok.injEq, Prod.mk.injEq] at h
    obtain ⟨hb, hr⟩ := h
    subst hb; subst hr; subst h14
    obtain ⟨hre, e⟩ := parsePds_inv hp
    subst hre
    exact ⟨rfl, by simpa [wrBody] using e⟩
  · obtain ⟨o, r, hp, h⟩ := pbind_ok h
    simp only [Except.ok.injEq, Prod.mk.injEq] at h
    obtain ⟨hb, hr⟩ := h
    subst hb; subst hr; subst h15
    obtain ⟨-, e⟩ := parseOds_inv hp
    exact ⟨rfl, by simpa [wrBody] using e⟩
  · simp only [Except.ok.injEq, Prod.mk.injEq] at h
    obtain ⟨hb, hr⟩ := h
    subst hb; subst hr; subst h80
    exact ⟨rfl, by simp [wrBody]⟩

lemma readSegCore_inv {bs : List Byte} {seg : Seg} {rest : List Byte}
    (h : readSegCore bs = .ok (seg, rest)) : writeSeg seg ++ rest = bs := by
  unfold readSegCore at h
  obtain ⟨magic, bs1, h1, h⟩ := pbind_ok h
  by_cases hm : magic = 0x5047
  · rw [if_pos hm] at h
    obtain ⟨pts, bs2, h2, h⟩ := pbind_ok h
    obtain ⟨dts, bs3, h3, h⟩ := pbind_ok h
    obtain ⟨kind, bs4, h4, h⟩ := pbind_ok h
    obtain ⟨size, bs5, h5, h⟩ := pbind_ok h
    by_cases hsz : size ≤ bs5.length
    · rw [if_pos hsz] at h
      obtain ⟨body, rem, hb, h⟩ := pbind_ok h
      by_cases hrem : rem = []
      · rw [if_pos hrem] at h
        simp only [Except.ok.injEq, Prod.mk.injEq] at h
        obtain ⟨hs, hr⟩ := h
        subst hs; subst hr; subst hrem; subst hm
        obtain ⟨hkind, hbb⟩ := parseBody_inv hb
        rw [List.append_nil] at hbb
        obtain ⟨-, e1⟩ := rdU16_inv h1
        obtain ⟨-, e2⟩ := rdU32_inv h2
        obtain ⟨-, e3⟩ := rdU32_inv h3
        obtain ⟨-, e4⟩ := rdU8_inv h4
        obtain ⟨-, e5⟩ := rdU16_inv h5
        have hlen : (wrBody body).length = size := by
          rw [← hbb, List.length_take]
          omega
        subst e1; subst e2; subst e3; subst e4; subst e5
        simp only [writeSeg, hkind, hlen, List.append_assoc]
        rw [← hbb]
        simp [List.take_append_drop]
      · rw [if_neg hrem] at h
        exact absurd h (by simp)
    · rw [if_neg hsz] at h
      exact absurd h (by simp)
  · rw [if_neg hm] at h
    exact absurd h (by simp)

/-- C6: decoding any well-formed segment of any of the five kinds and then
re-encoding it with unmodified fields — the body-size field being recomputed
from the actual content — reproduces the original byte sequence exactly. -/
theorem readSeg_writeSeg_roundtrip (bs : List Byte) (seg : Seg) (rest : List Byte)
    (h : readSeg bs = .ok seg rest) : writeSeg seg ++ rest = bs := by
  cases bs with
  | nil => simp [readSeg] at h
  | cons b t =>
    unfold readSeg at h
    dsimp only at h
    cases hc : readSegCore (b :: t) with
    | error e => rw [hc] at h; exact absurd h (by simp)
    | ok p =>
      obtain ⟨s, r⟩ := p
      rw [hc] at h
      dsimp only at h
      simp only [ReadResult.ok.injEq] at h
      obtain ⟨hs, hr⟩ := h
      subst hs; subst hr
      exact readSegCore_inv hc

/-- C6 witness: a concrete two-segment stream; the presentation composition
segment at 1920×1080 with one composition object decodes, and re-encoding
it reproduces its bytes, with the following end segment left as the rest. -/
theorem readSeg_writeSeg_roundtrip_witness :
    readSeg
        ([0x50, 0x47, 0, 0, 0, 1, 0, 0, 0, 0, 0x16, 0, 19,
          0x07, 0x80, 0x04, 0x38, 0x10, 0, 1, 0x80, 0x00, 0, 1,
          0, 1, 0, 0x00, 0, 100, 0, 200,
          0x50, 0x47, 0, 0, 0, 1, 0, 0, 0, 0, 0x80, 0, 0] : List Byte) =
      .ok ⟨1, 0, .presComp ⟨1920, 1080, 1, .epochStart, false, 0,
            [⟨1, 0, 100, 200, none⟩]⟩⟩
        ([0x50, 0x47, 0, 0, 0, 1, 0, 0, 0, 0, 0x80, 0, 0] : List Byte) ∧
    writeSeg ⟨1, 0, .presComp ⟨1920, 1080, 1, .epochStart, false, 0,
          [⟨1, 0, 100, 200, none⟩]⟩⟩ ++
        ([0x50, 0x47, 0, 0, 0, 1, 0, 0, 0, 0, 0x80, 0, 0] : List Byte) =
      ([0x50, 0x47, 0, 0, 0, 1, 0, 0, 0, 0, 0x16, 0, 19,
        0x07, 0x80, 0x04, 0x38, 0x10, 0, 1, 0x80, 0x00, 0, 1,
        0, 1, 0, 0x00, 0, 100, 0, 200,
        0x50, 0x47, 0, 0, 0, 1, 0, 0, 0, 0, 0x80, 0, 0] : List Byte) :=
  ⟨by decide, readSeg_writeSeg_roundtrip _ _ _ (by decide)⟩

/-- C3: end-of-input arriving exactly at a segment boundary is the normal
termination of the stream — `readSeg` reports it, and only it, as `noMore`,
which the orchestrator treats as non-fatal — while premature end-of-input in
the middle of a partially read segment record is the distinct
`truncatedSegment` error, which the orchestrator treats as fatal; the two
conditions are never conflated. -/
theorem readSeg_eof_distinction :
    readSeg ([] : List Byte) = .noMore ∧
    (∀ bs : List Byte, readSeg bs = .noMore → bs = []) ∧
    readSeg ([0x50] : List Byte) = .err .truncatedSegment ∧
    fatalOutcome (.err .truncatedSegment) = true ∧
    fatalOutcome .noMore = false := by
  refine ⟨rfl, ?_, by decide, rfl, rfl⟩
  intro bs h
  cases bs with
  | nil => rfl
  | cons b t =>
    unfold readSeg at h
    dsimp only at h
    cases hc : readSegCore (b :: t) with
    | error e => rw [hc] at h; simp at h
    | ok p => obtain ⟨s, r⟩ := p; rw [hc] at h; simp at h

/-- C3 witness: the empty input is the clean end of stream. -/
theorem readSeg_eof_distinction_witness : ([] : List Byte) = [] :=
  readSeg_eof_distinction.2.1 [] rfl

/-- C10 witness: a display set with a single window passes the collision
validation. -/
theorem single_window_no_collision_witness :
    ([((0 : Nat), (⟨1, 2, 3, 4⟩ : DsWindow))].length ≤ 1) ∧
    checkWindows 9 [(0, ⟨1, 2, 3, 4⟩)] = .ok () :=
  ⟨by decide, single_window_no_collision 9 [(0, ⟨1, 2, 3, 4⟩)] (by decide)⟩
